import Mathlib

/-!
Formal model of the Trasformator two-tone pattern-art pipeline.

The definitions below are a shallow embedding of the repository's code:
`src/src/lib/imageOps.ts` (tone adjustment, mask building, pattern tile
generation) and the render effect plus compositor of `src/src/App.tsx` /
`src/unnamed/part_000`.  JavaScript numbers are embedded as rationals,
pixel buffers as lists of four-channel pixels, canvas drawing calls as a
list of drawing commands, and canvas compositing operators as the
standard premultiplied per-pixel formulas.  Host failures (a 2D context
that cannot be obtained) are modelled by an explicit boolean flag.
-/

namespace Trasformator

/-- clamp from imageOps.ts: min(max, Math.max(min, value)). -/
def clampQ (value lo hi : ℚ) : ℚ := min hi (max lo value)

/-- A four-channel 8-bit pixel (R, G, B, A) as stored in an ImageData. -/
structure Pixel where
  r : ℕ
  g : ℕ
  b : ℕ
  a : ℕ
deriving DecidableEq

/-- Adjustments record from imageOps.ts (numeric fields as rationals). -/
structure Adjustments where
  brightness : ℚ
  contrast : ℚ
  threshold : ℚ
deriving DecidableEq

/-- Luminance: gray = 0.299 r + 0.587 g + 0.114 b. -/
def grayOf (p : Pixel) : ℚ :=
  0.299 * (p.r : ℚ) + 0.587 * (p.g : ℚ) + 0.114 * (p.b : ℚ)

/-- Contrast factor: (259 (c 255 + 255)) / (255 (259 - c 255)). -/
def contrastFactor (c : ℚ) : ℚ :=
  (259 * (c * 255 + 255)) / (255 * (259 - c * 255))

/-- The brightness/contrast-adjusted gray of a pixel, clamped to [0, 255],
as computed in the loop of applyAdjustments. -/
def adjustedGray (adj : Adjustments) (p : Pixel) : ℚ :=
  let b := clampQ (adj.brightness / 100) (-1) 1
  let c := clampQ (adj.contrast / 100) (-1) 1
  clampQ (contrastFactor c * (grayOf p - 128) + 128 + b * 255) 0 255

/-- Threshold value: clamp(threshold, 0, 100) / 100 * 255. -/
def tValue (adj : Adjustments) : ℚ :=
  clampQ adj.threshold 0 100 / 100 * 255

/-- The binarized sample written to R, G and B: 255 if adjusted >= tValue else 0. -/
def binaryOf (adj : Adjustments) (p : Pixel) : ℕ :=
  if tValue adj ≤ adjustedGray adj p then 255 else 0

/-- One iteration of the applyAdjustments pixel loop. -/
def applyAdjustmentsPixel (adj : Adjustments) (p : Pixel) : Pixel :=
  ⟨binaryOf adj p, binaryOf adj p, binaryOf adj p, 255⟩

/-- The pixel transform of applyAdjustments over a whole buffer. -/
def applyAdjustments (adj : Adjustments) (data : List Pixel) : List Pixel :=
  data.map (applyAdjustmentsPixel adj)

/-- The side selector of createMaskCanvas ("dark" or "light"). -/
inductive Side where
  | dark
  | light
deriving DecidableEq

/-- One iteration of the createMaskCanvas pixel loop: isLight = (R == 255),
patternArea = dark ? !isLight : isLight, alpha = patternArea ? 255 : 0,
RGB written as 0. -/
def maskPixel (side : Side) (p : Pixel) : Pixel :=
  let isLight : Bool := p.r == 255
  let patternArea : Bool := match side with
    | .dark => !isLight
    | .light => isLight
  ⟨0, 0, 0, if patternArea then 255 else 0⟩

/-- The mask buffer computed by createMaskCanvas. -/
def buildMaskData (data : List Pixel) (side : Side) : List Pixel :=
  data.map (maskPixel side)

/-- createMaskCanvas with its context check: throws "Canvas context not
available" when the 2D context of the freshly created canvas cannot be
obtained (modelled by the ctxOk flag), otherwise returns the mask buffer. -/
def createMaskCanvas (ctxOk : Bool) (data : List Pixel) (side : Side) :
    Except String (List Pixel) :=
  if ctxOk then .ok (buildMaskData data side)
  else .error "Canvas context not available"

/-- The closed pattern-type enum of imageOps.ts. -/
inductive PatternType where
  | dots
  | diagonal
  | grid
  | checker
  | crosshatch
deriving DecidableEq

/-- PatternOptions record; rotationDeg embeds its rotation field (degrees). -/
structure PatternOptions where
  scale : ℚ
  stroke : ℚ
  rotationDeg : ℚ
deriving DecidableEq

/-- An opaque RGB color (a parsed hex color). -/
structure ColorRGB where
  r : ℚ
  g : ℚ
  b : ℚ
deriving DecidableEq

/-- Tile edge length in createPattern: Math.max(24, 80 * scale). -/
def tileSize (scale : ℚ) : ℚ := max 24 (80 * scale)

/-- The values taken by a loop variable of a strict-bound JS loop
for (v = start; v < stop; v += step), unrolled in closed form
(faithful for step > 0): start + i * step for every natural i with
start + i * step < stop. -/
def loopVals (start stop step : ℚ) : List ℚ :=
  (List.range (Int.toNat ⌈(stop - start) / step⌉)).map
    (fun i : ℕ => start + (i : ℚ) * step)

/-- The values taken by a loop variable of an inclusive-bound JS loop
for (v = start; v <= stop; v += step), unrolled in closed form
(faithful for step > 0). -/
def loopValsLe (start stop step : ℚ) : List ℚ :=
  (List.range (Int.toNat (⌊(stop - start) / step⌋ + 1))).map
    (fun i : ℕ => start + (i : ℚ) * step)

/-- One canvas drawing call recorded symbolically: a filled circle
(arc + fill), a stroked segment (moveTo / lineTo / stroke), a stroked
segment drawn under a rotation of the given angle about the given center
(the save / translate / rotate / translate transform of the diagonal
case), or a filled rectangle. -/
inductive DrawCmd where
  | circle (cx cy radius : ℚ)
  | seg (x1 y1 x2 y2 : ℚ)
  | rotSeg (angleDeg cx cy x1 y1 x2 y2 : ℚ)
  | rect (x y w h : ℚ)
deriving DecidableEq

/-- The dots case: a lattice of filled circles, radius max(1, size/12 * scale),
spacing size/3.2, both loop variables starting at spacing/2. -/
def dotsCmds (size scale : ℚ) : List DrawCmd :=
  let radius := max 1 (size / 12 * scale)
  let spacing := size / 3.2
  (loopVals (spacing / 2) size spacing).flatMap (fun y =>
    (loopVals (spacing / 2) size spacing).map (fun x => .circle x y radius))

/-- The family of segments (x, 0)-(x + size, size) for x running over the
[-size, 2 size) band at the given spacing, each drawn under a rotation of
rot degrees about the tile center. -/
def diagFamily (size spacing rot : ℚ) : List DrawCmd :=
  (loopVals (-size) (size * 2) spacing).map
    (fun x => .rotSeg rot (size / 2) (size / 2) x 0 (x + size) size)

/-- The mirrored family: segments (x + size, 0)-(x, size) over the same band. -/
def mirrorFamily (size spacing : ℚ) : List DrawCmd :=
  (loopVals (-size) (size * 2) spacing).map
    (fun x => .seg (x + size) 0 x size)

/-- The diagonal case: the diagFamily construction at spacing size/3.2,
rotated by the rotation option. -/
def diagonalCmds (size rot : ℚ) : List DrawCmd :=
  diagFamily size (size / 3.2) rot

/-- The grid case: vertical and horizontal lines every size/4 from 0 to
size inclusive. -/
def gridCmds (size : ℚ) : List DrawCmd :=
  let spacing := size / 4
  (loopValsLe 0 size spacing).flatMap (fun i =>
    [.seg i 0 i size, .seg 0 i size i])

/-- The checker case: 4 x 4 cells of edge size/4, cell (x, y) filled when
(x + y) % 2 == 0. -/
def checkerCmds (size : ℚ) : List DrawCmd :=
  let cell := size / 4
  (List.range 4).flatMap (fun y =>
    (List.range 4).filterMap (fun x =>
      if (x + y) % 2 = 0 then
        some (.rect ((x : ℚ) * cell) ((y : ℚ) * cell) cell cell)
      else none))

/-- The crosshatch case: for each x over the [-size, 2 size) band spaced
size/4 apart, the segment (x, 0)-(x + size, size) and its mirror
(x + size, 0)-(x, size), drawn with no rotation transform. -/
def crosshatchCmds (size : ℚ) : List DrawCmd :=
  (loopVals (-size) (size * 2) (size / 4)).flatMap (fun x =>
    [.seg x 0 (x + size) size, .seg (x + size) 0 x size])

/-- The switch of createPattern, dispatching over the closed enum. -/
def patternCmds (t : PatternType) (o : PatternOptions) : List DrawCmd :=
  let size := tileSize o.scale
  match t with
  | .dots => dotsCmds size o.scale
  | .diagonal => diagonalCmds size o.rotationDeg
  | .grid => gridCmds size
  | .checker => checkerCmds size
  | .crosshatch => crosshatchCmds size

/-- The tile canvas produced by createPattern: a square surface of edge
tileSize together with its stroke width, color and recorded drawing calls. -/
structure PatternTile where
  width : ℚ
  height : ℚ
  stroke : ℚ
  color : ColorRGB
  cmds : List DrawCmd
deriving DecidableEq

/-- createPattern: sizes a square tile canvas to max(24, 80 * scale),
returns null when its 2D context cannot be obtained (ctxOk = false), and
otherwise draws the pattern for the given type and returns the repeating
tile. -/
def createPattern (ctxOk : Bool) (t : PatternType) (o : PatternOptions)
    (color : ColorRGB) : Option PatternTile :=
  let size := tileSize o.scale
  if ctxOk then some ⟨size, size, o.stroke, color, patternCmds t o⟩
  else none

/-- specCrosshatchCmds is modelled from the spec's words for Crosshatch,
for comparison with the code's crosshatchCmds: the Diagonal construction
(parallel lines spaced size/3.2 apart over the [-size, 2 size) band)
applied twice, once as drawn and once mirrored to slope the opposite way,
with no rotation applied. -/
def specCrosshatchCmds (size : ℚ) : List DrawCmd :=
  (loopVals (-size) (size * 2) (size / 3.2)).flatMap (fun x =>
    [.seg x 0 (x + size) size, .seg (x + size) 0 x size])

/-- Erase the rotation transform of a recorded segment. -/
def stripRot : DrawCmd → DrawCmd
  | .rotSeg _ _ _ x1 y1 x2 y2 => .seg x1 y1 x2 y2
  | c => c

/-- A canvas pixel with premultiplied rational channels (alpha in [0, 255]). -/
structure QPixel where
  r : ℚ
  g : ℚ
  b : ℚ
  a : ℚ
deriving DecidableEq

/-- The fully opaque canvas pixel of a solid fill color. -/
def solidPx (c : ColorRGB) : QPixel := ⟨c.r, c.g, c.b, 255⟩

/-- Canvas source-over on premultiplied pixels: result = src + dst (1 - a_src). -/
def sourceOverPx (s d : QPixel) : QPixel :=
  ⟨s.r + d.r * (1 - s.a / 255), s.g + d.g * (1 - s.a / 255),
   s.b + d.b * (1 - s.a / 255), s.a + d.a * (1 - s.a / 255)⟩

/-- Canvas destination-in on premultiplied pixels: result = dst * a_src. -/
def destinationInPx (s d : QPixel) : QPixel :=
  ⟨d.r * (s.a / 255), d.g * (s.a / 255), d.b * (s.a / 255), d.a * (s.a / 255)⟩

/-- Canvas source-in on premultiplied pixels: result = src * a_dst. -/
def sourceInPx (s d : QPixel) : QPixel :=
  ⟨s.r * (d.a / 255), s.g * (d.a / 255), s.b * (d.a / 255), s.a * (d.a / 255)⟩

/-- A pixel of the mask canvas as drawn by drawImage: RGB 0 with the
mask's alpha. -/
def maskSrcPx (alpha : ℚ) : QPixel := ⟨0, 0, 0, alpha⟩

/-- Per-pixel trace of the tiled path: the canvas holds the background
fill, paintPatternMasked fills the whole canvas with the tiled pattern
(source-over), then draws the mask with destination-in. -/
def compositeTiledPx (bg : ColorRGB) (patPx : QPixel) (maskAlpha : ℚ) : QPixel :=
  destinationInPx (maskSrcPx maskAlpha) (sourceOverPx patPx (solidPx bg))

/-- Per-pixel trace of the fallback flat-fill path: the canvas holds the
background fill, the mask canvas is drawn source-over, then a rectangle
of the pattern color is filled with source-in. -/
def compositeFallbackPx (bg pc : ColorRGB) (maskAlpha : ℚ) : QPixel :=
  sourceInPx (solidPx pc) (sourceOverPx (maskSrcPx maskAlpha) (solidPx bg))

/-- Per-pixel trace of the App render effect at flat index i: resolve the
effective colors from the invert flag, binarize the source pixel, build
the mask pixel for the chosen side, generate the tile with the effective
pattern color, and composite through the tiled path when the tile exists
or the fallback path otherwise.  The rasterization of the tile's drawing
calls at a canvas position is kept abstract as the raster argument. -/
def renderPixel (raster : PatternTile → ℕ → QPixel) (adj : Adjustments)
    (side : Side) (ctxOk : Bool) (t : PatternType) (o : PatternOptions)
    (pc bg : ColorRGB) (invert : Bool) (i : ℕ) (src : Pixel) : QPixel :=
  let ep := if invert then bg else pc
  let eb := if invert then pc else bg
  let processed := applyAdjustmentsPixel adj src
  let m := maskPixel side processed
  match createPattern ctxOk t o ep with
  | some tile => compositeTiledPx eb (raster tile i) (m.a : ℚ)
  | none => compositeFallbackPx eb ep (m.a : ℚ)

/-- The full render of a source buffer by the App render effect. -/
def renderApp (raster : PatternTile → ℕ → QPixel) (adj : Adjustments)
    (side : Side) (ctxOk : Bool) (t : PatternType) (o : PatternOptions)
    (pc bg : ColorRGB) (invert : Bool) (srcData : List Pixel) : List QPixel :=
  List.mapIdx (fun i p => renderPixel raster adj side ctxOk t o pc bg invert i p)
    srcData

/-- The sizing scale of the render effect:
Math.min(1280 / width, 1280 / height, 1). -/
def fitScale (w h : ℕ) : ℚ :=
  min (min (1280 / (w : ℚ)) (1280 / (h : ℚ))) 1

/-- Output width: Math.round(bitmap.width * scale). -/
def outWidth (w h : ℕ) : ℤ := round ((w : ℚ) * fitScale w h)

/-- Output height: Math.round(bitmap.height * scale). -/
def outHeight (w h : ℕ) : ℤ := round ((h : ℚ) * fitScale w h)

/-- The Adjustments value with every field clamped to its documented range. -/
def clampAdjustments (a : Adjustments) : Adjustments :=
  ⟨clampQ a.brightness (-100) 100, clampQ a.contrast (-100) 100,
   clampQ a.threshold 0 100⟩

/-! Helper lemmas shared by the theorems below. -/

/-- Reading an in-range index of a mapped buffer reads the mapped element. -/
theorem getD_map_of_lt {α β : Type} (f : α → β) (l : List α) (i : ℕ)
    (h : i < l.length) (d : α) (d' : β) :
    (l.map f).getD i d' = f (l.getD i d) := by
  rw [List.getD_eq_getElem?_getD, List.getD_eq_getElem?_getD, List.getElem?_map,
    List.getElem?_eq_getElem h]
  simp

/-- clampQ lands in its interval. -/
theorem clampQ_mem (x lo hi : ℚ) (h : lo ≤ hi) :
    lo ≤ clampQ x lo hi ∧ clampQ x lo hi ≤ hi :=
  ⟨le_min h (le_max_left lo x), min_le_left hi _⟩

/-- clampQ fixes points of its interval. -/
theorem clampQ_of_mem (y lo hi : ℚ) (h1 : lo ≤ y) (h2 : y ≤ hi) :
    clampQ y lo hi = y := by
  rw [clampQ, max_eq_right h1, min_eq_right h2]

/-- clampQ is idempotent. -/
theorem clampQ_idem (x lo hi : ℚ) (h : lo ≤ hi) :
    clampQ (clampQ x lo hi) lo hi = clampQ x lo hi :=
  clampQ_of_mem _ _ _ (clampQ_mem x lo hi h).1 (clampQ_mem x lo hi h).2

/-- Clamping to [-100, 100] then dividing by 100 is clamping the quotient
to [-1, 1]. -/
theorem clampQ_div_hundred (x : ℚ) :
    clampQ x (-100) 100 / 100 = clampQ (x / 100) (-1) 1 := by
  simp only [clampQ, min_def, max_def]
  split_ifs <;> norm_num <;> linarith

/-- The two-segments-per-offset loops produce twice as many commands as
offsets. -/
theorem flatMap_pair_length (l : List ℚ) (f g : ℚ → DrawCmd) :
    (l.flatMap (fun x => [f x, g x])).length = 2 * l.length := by
  induction l with
  | nil => rfl
  | cons x xs ih =>
    simp [List.flatMap_cons, ih]
    ring

/-- The number of iterations of a strict-bound loop. -/
theorem loopVals_length (start stop step : ℚ) :
    (loopVals start stop step).length = Int.toNat ⌈(stop - start) / step⌉ := by
  rw [loopVals, List.length_map, List.length_range]

/-- Flattening the pairing of two mapped copies of one offset list is the
two-commands-per-offset loop over that list. -/
theorem flatten_zipWith_pair {α : Type} (l : List ℚ) (f g : ℚ → α) :
    (List.zipWith (fun a b => [a, b]) (l.map f) (l.map g)).flatten
      = l.flatMap (fun x => [f x, g x]) := by
  induction l with
  | nil => rfl
  | cons x xs ih =>
    simp only [List.map_cons, List.zipWith_cons_cons, List.flatten_cons,
      List.flatMap_cons, ih]

/-! The claims. -/

/-- C1: the claimed compositor background law fails on the code.  At a
position whose mask alpha is 0 (a white source pixel with the pattern on
the dark side), the tiled path (paintPatternMasked, whose destination-in
pass scales every channel of the already-composited canvas by the mask
alpha) yields the fully transparent pixel (0,0,0,0) rather than the
opaque background color, and the fallback flat-fill path (whose source-in
fill sees the fully opaque background-filled canvas) yields the pattern
color everywhere, again not the background color. -/
theorem compositor_background_bug :
    (maskPixel .dark (applyAdjustmentsPixel ⟨0, 0, 55⟩ ⟨255, 255, 255, 255⟩)).a = 0 ∧
    renderPixel (fun _ _ => ⟨0, 0, 0, 255⟩) ⟨0, 0, 55⟩ .dark true .dots ⟨4/5, 3/2, 45⟩
        ⟨15, 23, 42⟩ ⟨255, 255, 255⟩ false 0 ⟨255, 255, 255, 255⟩ = ⟨0, 0, 0, 0⟩ ∧
    renderPixel (fun _ _ => ⟨0, 0, 0, 255⟩) ⟨0, 0, 55⟩ .dark true .dots ⟨4/5, 3/2, 45⟩
        ⟨15, 23, 42⟩ ⟨255, 255, 255⟩ false 0 ⟨255, 255, 255, 255⟩ ≠ solidPx ⟨255, 255, 255⟩ ∧
    renderPixel (fun _ _ => ⟨0, 0, 0, 255⟩) ⟨0, 0, 55⟩ .dark false .dots ⟨4/5, 3/2, 45⟩
        ⟨15, 23, 42⟩ ⟨255, 255, 255⟩ false 0 ⟨255, 255, 255, 255⟩ = solidPx ⟨15, 23, 42⟩ ∧
    renderPixel (fun _ _ => ⟨0, 0, 0, 255⟩) ⟨0, 0, 55⟩ .dark false .dots ⟨4/5, 3/2, 45⟩
        ⟨15, 23, 42⟩ ⟨255, 255, 255⟩ false 0 ⟨255, 255, 255, 255⟩ ≠ solidPx ⟨255, 255, 255⟩ := by
  have hmask : (maskPixel .dark (applyAdjustmentsPixel ⟨0, 0, 55⟩ ⟨255, 255, 255, 255⟩)).a = 0 := by
    simp only [maskPixel, applyAdjustmentsPixel, binaryOf, tValue, adjustedGray, grayOf,
      contrastFactor, clampQ]
    norm_num [min_def, max_def]
  have h1 : renderPixel (fun _ _ => ⟨0, 0, 0, 255⟩) ⟨0, 0, 55⟩ .dark true .dots
      ⟨4/5, 3/2, 45⟩ ⟨15, 23, 42⟩ ⟨255, 255, 255⟩ false 0 ⟨255, 255, 255, 255⟩
      = ⟨0, 0, 0, 0⟩ := by
    simp only [renderPixel, createPattern, maskPixel, applyAdjustmentsPixel, binaryOf, tValue,
      adjustedGray, grayOf, contrastFactor, clampQ, compositeTiledPx, destinationInPx,
      sourceOverPx, maskSrcPx, solidPx]
    norm_num [min_def, max_def]
  have h2 : renderPixel (fun _ _ => ⟨0, 0, 0, 255⟩) ⟨0, 0, 55⟩ .dark false .dots
      ⟨4/5, 3/2, 45⟩ ⟨15, 23, 42⟩ ⟨255, 255, 255⟩ false 0 ⟨255, 255, 255, 255⟩
      = solidPx ⟨15, 23, 42⟩ := by
    simp only [renderPixel, createPattern, maskPixel, applyAdjustmentsPixel, binaryOf, tValue,
      adjustedGray, grayOf, contrastFactor, clampQ, compositeFallbackPx, sourceInPx,
      sourceOverPx, maskSrcPx, solidPx]
    norm_num [min_def, max_def]
  refine ⟨hmask, h1, ?_, h2, ?_⟩
  · rw [h1]
    intro hcon
    have := congrArg QPixel.a hcon
    rw [solidPx] at this
    norm_num at this
  · rw [h2]
    intro hcon
    have := congrArg QPixel.r hcon
    rw [solidPx, solidPx] at this
    norm_num at this

/-- C2 counterexample: at the default options (scale 0.8, tile size 64),
the code's Crosshatch command list is not the spec's
Diagonal-construction-applied-twice at spacing size/3.2: the code spaces
its line families size/4 apart (12 offsets, 24 segments) while the spec's
construction would use size/3.2 (10 offsets, 20 segments). -/
theorem crosshatch_spacing_mismatch :
    patternCmds .crosshatch ⟨4/5, 3/2, 45⟩ ≠ specCrosshatchCmds (tileSize (4/5)) := by
  intro h
  have hlen := congrArg List.length h
  rw [show patternCmds .crosshatch ⟨4/5, 3/2, 45⟩
    = crosshatchCmds (tileSize (4/5)) from rfl] at hlen
  have hts : tileSize (4/5 : ℚ) = 64 := by
    rw [tileSize, max_eq_right (by norm_num)]
    norm_num
  rw [hts] at hlen
  rw [crosshatchCmds, specCrosshatchCmds, flatMap_pair_length, flatMap_pair_length,
    loopVals_length, loopVals_length] at hlen
  rw [show ((64:ℚ) * 2 - -64) / (64 / 3.2) = 48/5 by norm_num] at hlen
  rw [show ((64:ℚ) * 2 - -64) / (64 / 4) = 12 by norm_num] at hlen
  rw [show (⌈(48/5 : ℚ)⌉ : ℤ) = 10 from Int.ceil_eq_iff.mpr (by norm_num)] at hlen
  rw [show (⌈(12 : ℚ)⌉ : ℤ) = 12 by norm_num] at hlen
  omega

/-- C2 amended: for every PatternOptions, the Crosshatch tile interleaves
the Diagonal line family taken at spacing size/4 (not size/3.2) with the
same family mirrored to slope the opposite way, and the rotation
parameter is not applied to the Crosshatch tile. -/
theorem crosshatch_characterization (o : PatternOptions) (r : ℚ) :
    patternCmds .crosshatch o = patternCmds .crosshatch ⟨o.scale, o.stroke, r⟩ ∧
    patternCmds .crosshatch o =
      (List.zipWith (fun a b => [a, b])
        ((diagFamily (tileSize o.scale) (tileSize o.scale / 4) o.rotationDeg).map stripRot)
        (mirrorFamily (tileSize o.scale) (tileSize o.scale / 4))).flatten := by
  constructor
  · rfl
  · show crosshatchCmds (tileSize o.scale) = _
    rw [diagFamily, mirrorFamily, List.map_map]
    rw [flatten_zipWith_pair]
    rfl

/-- C3: every output pixel of applyAdjustments has R = G = B with the
common value in 0 or 255 and alpha 255, and the value is 255 exactly when
the brightness/contrast-adjusted gray reaches the threshold value. -/
theorem tone_binary_invariant (adj : Adjustments) (data : List Pixel) (i : ℕ)
    (h : i < data.length) :
    ((applyAdjustments adj data).getD i ⟨0, 0, 0, 0⟩).r
        = ((applyAdjustments adj data).getD i ⟨0, 0, 0, 0⟩).g ∧
    ((applyAdjustments adj data).getD i ⟨0, 0, 0, 0⟩).g
        = ((applyAdjustments adj data).getD i ⟨0, 0, 0, 0⟩).b ∧
    (((applyAdjustments adj data).getD i ⟨0, 0, 0, 0⟩).r = 0 ∨
        ((applyAdjustments adj data).getD i ⟨0, 0, 0, 0⟩).r = 255) ∧
    ((applyAdjustments adj data).getD i ⟨0, 0, 0, 0⟩).a = 255 ∧
    (((applyAdjustments adj data).getD i ⟨0, 0, 0, 0⟩).r = 255 ↔
        tValue adj ≤ adjustedGray adj (data.getD i ⟨0, 0, 0, 0⟩)) := by
  rw [applyAdjustments, getD_map_of_lt _ _ _ h ⟨0, 0, 0, 0⟩]
  rw [applyAdjustmentsPixel]
  refine ⟨rfl, rfl, ?_, rfl, ?_⟩
  · rw [binaryOf]
    split_ifs with hc
    · right
      rfl
    · left
      rfl
  · rw [binaryOf]
    split_ifs with hc
    · exact iff_of_true rfl hc
    · exact iff_of_false (by norm_num) hc

/-- C3 witness: at Adjustments (0, 0, 50) on the one-pixel buffer
(200, 10, 10, 255), the output alpha is 255. -/
theorem tone_binary_invariant_witness :
    0 < ([(⟨200, 10, 10, 255⟩ : Pixel)]).length ∧
    ((applyAdjustments ⟨0, 0, 50⟩ [⟨200, 10, 10, 255⟩]).getD 0 ⟨0, 0, 0, 0⟩).a = 255 :=
  ⟨by norm_num,
    (tone_binary_invariant ⟨0, 0, 50⟩ [⟨200, 10, 10, 255⟩] 0 (by norm_num)).2.2.2.1⟩

/-- C4 counterexample: PatternOptions.scale is not clamped before use: at
scale 10 (documented range [0.5, 3]) createPattern returns a different
tile than at the clamped scale (the tile edge is 800, not 240). -/
theorem pattern_options_not_clamped :
    createPattern true .dots ⟨10, 3/2, 45⟩ ⟨0, 0, 0⟩ ≠
      createPattern true .dots ⟨clampQ 10 (1/2) 3, 3/2, 45⟩ ⟨0, 0, 0⟩ := by
  intro h
  have hw := congrArg (fun v => (Option.map PatternTile.width v).getD 0) h
  simp only [createPattern, if_true, Option.map_some, Option.getD_some] at hw
  have h10 : tileSize 10 = 800 := by
    rw [tileSize, max_eq_right (by norm_num)]
    norm_num
  have h3 : tileSize (clampQ 10 (1/2) 3) = 240 := by
    rw [clampQ, max_eq_right (by norm_num), min_eq_left (by norm_num)]
    rw [tileSize, max_eq_right (by norm_num)]
    norm_num
  rw [h10, h3] at hw
  norm_num at hw

/-- C4 amended: the Adjustments fields are effectively clamped to their
documented ranges before use (brightness and contrast to [-100, 100],
threshold to [0, 100]), so out-of-range adjustments behave exactly as
their clamped values and raise no error; the PatternOptions fields are
used unclamped. -/
theorem adjustments_clamp_invariance (a : Adjustments) (p : Pixel) :
    applyAdjustmentsPixel (clampAdjustments a) p = applyAdjustmentsPixel a p := by
  have hb : clampQ (clampQ a.brightness (-100) 100 / 100) (-1) 1
      = clampQ (a.brightness / 100) (-1) 1 := by
    rw [clampQ_div_hundred, clampQ_idem _ _ _ (by norm_num)]
  have hc : clampQ (clampQ a.contrast (-100) 100 / 100) (-1) 1
      = clampQ (a.contrast / 100) (-1) 1 := by
    rw [clampQ_div_hundred, clampQ_idem _ _ _ (by norm_num)]
  have ht : tValue (clampAdjustments a) = tValue a := by
    rw [tValue, tValue, clampAdjustments, clampQ_idem _ _ _ (by norm_num)]
  have hg : adjustedGray (clampAdjustments a) p = adjustedGray a p := by
    rw [adjustedGray, adjustedGray, clampAdjustments]
    simp only [hb, hc]
  rw [applyAdjustmentsPixel, applyAdjustmentsPixel, binaryOf, binaryOf, ht, hg]

/-- C5: for every scale in [0.5, 3] (and every stroke, rotation, color
and pattern type), the tile generated by createPattern is square with
edge length max(24, 80 * scale). -/
theorem tile_size_law (t : PatternType) (o : PatternOptions) (c : ColorRGB)
    (h1 : 1/2 ≤ o.scale) (h2 : o.scale ≤ 3) :
    (createPattern true t o c).map PatternTile.width = some (max 24 (80 * o.scale)) ∧
    (createPattern true t o c).map PatternTile.height
      = (createPattern true t o c).map PatternTile.width := by
  simp [createPattern, tileSize]

/-- C5 witness: at scale 1 the parameters are in range and the dots tile
is reported square of edge max(24, 80). -/
theorem tile_size_law_witness :
    (1/2 : ℚ) ≤ 1 ∧ (1 : ℚ) ≤ 3 ∧
    (createPattern true .dots ⟨1, 1, 0⟩ ⟨0, 0, 0⟩).map PatternTile.width
      = some (max 24 (80 * (1 : ℚ))) :=
  ⟨by norm_num, by norm_num,
    (tile_size_law .dots ⟨1, 1, 0⟩ ⟨0, 0, 0⟩ (by norm_num) (by norm_num)).1⟩

/-- C6: for every buffer and in-range pixel position, the alphas of the
dark-side and light-side masks sum to 255, and both masks write 0 to all
RGB channels. -/
theorem mask_complement_law (data : List Pixel) (i : ℕ) (h : i < data.length) :
    ((buildMaskData data .dark).getD i ⟨0, 0, 0, 0⟩).a
        + ((buildMaskData data .light).getD i ⟨0, 0, 0, 0⟩).a = 255 ∧
    ((buildMaskData data .dark).getD i ⟨0, 0, 0, 0⟩).r = 0 ∧
    ((buildMaskData data .dark).getD i ⟨0, 0, 0, 0⟩).g = 0 ∧
    ((buildMaskData data .dark).getD i ⟨0, 0, 0, 0⟩).b = 0 ∧
    ((buildMaskData data .light).getD i ⟨0, 0, 0, 0⟩).r = 0 ∧
    ((buildMaskData data .light).getD i ⟨0, 0, 0, 0⟩).g = 0 ∧
    ((buildMaskData data .light).getD i ⟨0, 0, 0, 0⟩).b = 0 := by
  rw [buildMaskData, buildMaskData, getD_map_of_lt _ _ _ h ⟨0, 0, 0, 0⟩,
    getD_map_of_lt _ _ _ h ⟨0, 0, 0, 0⟩]
  rw [maskPixel, maskPixel]
  refine ⟨?_, rfl, rfl, rfl, rfl, rfl, rfl⟩
  generalize data.getD i ⟨0, 0, 0, 0⟩ = p
  by_cases hl : p.r = 255
  · rw [if_neg (by simp [hl]), if_pos (by simp [hl])]
    norm_num
  · rw [if_pos (by simp [hl]), if_neg (by simp [hl])]
    norm_num

/-- C6 witness: on the one-pixel buffer (255, 0, 0, 255) the two mask
alphas at index 0 sum to 255. -/
theorem mask_complement_law_witness :
    0 < ([(⟨255, 0, 0, 255⟩ : Pixel)]).length ∧
    ((buildMaskData [⟨255, 0, 0, 255⟩] .dark).getD 0 ⟨0, 0, 0, 0⟩).a
        + ((buildMaskData [⟨255, 0, 0, 255⟩] .light).getD 0 ⟨0, 0, 0, 0⟩).a = 255 :=
  ⟨by norm_num, (mask_complement_law [⟨255, 0, 0, 255⟩] 0 (by norm_num)).1⟩

/-- C7: rendering with patternColor A, backgroundColor B and invert true
is identical to rendering with patternColor B, backgroundColor A and
invert false, for every source buffer, every parameter set and every
tile rasterization. -/
theorem invert_law (raster : PatternTile → ℕ → QPixel) (adj : Adjustments)
    (side : Side) (ctxOk : Bool) (t : PatternType) (o : PatternOptions)
    (a b : ColorRGB) (src : List Pixel) :
    renderApp raster adj side ctxOk t o a b true src
      = renderApp raster adj side ctxOk t o b a false src := rfl

/-- C8: for every positive source size, the output dimensions (each the
source dimension times min(1280/w, 1280/h, 1), rounded to nearest) never
exceed the source dimensions and never exceed 1280. -/
theorem sizing_rule (w h : ℕ) (hw : 0 < w) (hh : 0 < h) :
    outWidth w h ≤ (w : ℤ) ∧ outHeight w h ≤ (h : ℤ) ∧
    outWidth w h ≤ 1280 ∧ outHeight w h ≤ 1280 := by
  have hw0 : (0:ℚ) < (w:ℚ) := by exact_mod_cast hw
  have hh0 : (0:ℚ) < (h:ℚ) := by exact_mod_cast hh
  have hs1 : fitScale w h ≤ 1 := min_le_right _ _
  have hsw : fitScale w h ≤ 1280 / (w:ℚ) := le_trans (min_le_left _ _) (min_le_left _ _)
  have hsh : fitScale w h ≤ 1280 / (h:ℚ) := le_trans (min_le_left _ _) (min_le_right _ _)
  have key : ∀ (n : ℕ) (x : ℚ), (n:ℚ) * fitScale w h ≤ x →
      round ((n:ℚ) * fitScale w h) ≤ round x := by
    intro n x hx
    rw [round_eq, round_eq]
    exact Int.floor_le_floor (by linarith)
  refine ⟨?_, ?_, ?_, ?_⟩
  · have h1 : (w:ℚ) * fitScale w h ≤ (w:ℚ) := by
      calc (w:ℚ) * fitScale w h ≤ (w:ℚ) * 1 :=
            mul_le_mul_of_nonneg_left hs1 (le_of_lt hw0)
        _ = (w:ℚ) := mul_one _
    have hr := key w (w:ℚ) h1
    rwa [round_natCast] at hr
  · have h1 : (h:ℚ) * fitScale w h ≤ (h:ℚ) := by
      calc (h:ℚ) * fitScale w h ≤ (h:ℚ) * 1 :=
            mul_le_mul_of_nonneg_left hs1 (le_of_lt hh0)
        _ = (h:ℚ) := mul_one _
    have hr := key h (h:ℚ) h1
    rwa [round_natCast] at hr
  · have h1 : (w:ℚ) * fitScale w h ≤ 1280 := by
      have hch : (w:ℚ) * (1280 / (w:ℚ)) = 1280 := by field_simp
      calc (w:ℚ) * fitScale w h ≤ (w:ℚ) * (1280 / (w:ℚ)) :=
            mul_le_mul_of_nonneg_left hsw (le_of_lt hw0)
        _ = 1280 := hch
    have hr := key w 1280 h1
    rwa [show round ((1280:ℚ)) = 1280 by rw [round_eq]; norm_num] at hr
  · have h1 : (h:ℚ) * fitScale w h ≤ 1280 := by
      have hch : (h:ℚ) * (1280 / (h:ℚ)) = 1280 := by field_simp
      calc (h:ℚ) * fitScale w h ≤ (h:ℚ) * (1280 / (h:ℚ)) :=
            mul_le_mul_of_nonneg_left hsh (le_of_lt hh0)
        _ = 1280 := hch
    have hr := key h 1280 h1
    rwa [show round ((1280:ℚ)) = 1280 by rw [round_eq]; norm_num] at hr

/-- C8 witness: a 2000 x 1000 source satisfies the hypotheses and its
output dimensions obey the sizing rule. -/
theorem sizing_rule_witness :
    0 < 2000 ∧ 0 < 1000 ∧
    (outWidth 2000 1000 ≤ (2000 : ℤ) ∧ outHeight 2000 1000 ≤ (1000 : ℤ) ∧
      outWidth 2000 1000 ≤ 1280 ∧ outHeight 2000 1000 ≤ 1280) :=
  ⟨by norm_num, by norm_num, sizing_rule 2000 1000 (by norm_num) (by norm_num)⟩

/-- C9: createPattern returns null exactly when the tile's 2D context
cannot be acquired; with a working surface every member of the closed
pattern-type enum yields a non-null pattern. -/
theorem createPattern_none_iff (ctxOk : Bool) (t : PatternType)
    (o : PatternOptions) (c : ColorRGB) :
    createPattern ctxOk t o c = none ↔ ctxOk = false := by
  cases ctxOk <;> simp [createPattern]

/-- C10: createMaskCanvas itself raises the surface-unavailability error
"Canvas context not available" exactly when the 2D context of its fresh
canvas cannot be obtained, for every input buffer and side. -/
theorem createMaskCanvas_context_error (ctxOk : Bool) (data : List Pixel) (s : Side) :
    createMaskCanvas ctxOk data s = .error "Canvas context not available" ↔ ctxOk = false := by
  cases ctxOk <;> simp [createMaskCanvas]

end Trasformator
